import Mathlib

/-!
Shallow embedding of the ai-contract-auditor core: the data model
(frontend/src/types/contract.ts), the audit-form edit handlers
(components/AuditForm.tsx), the contract-detail page
(pages/ContractDetail.tsx), the dashboard categorization
(pages/Dashboard.tsx), and — since the Python backend is not part of the
provided sources — the rule-validation engine, lifecycle manager,
structured extractor and correction handler modelled from the spec.
-/

/-- Party, from frontend/src/types/contract.ts: name plus optional role. -/
structure Party where
  name : String
  role : Option String
deriving Repr, DecidableEq

/-- ExtractedData, from frontend/src/types/contract.ts. Optional fields are
Option; risk_score is a required integer. -/
structure ExtractedData where
  parties : List Party
  effective_date : Option String
  contract_duration_months : Option Int
  contract_duration_raw : Option String
  jurisdiction : Option String
  risk_score : Int
deriving Repr, DecidableEq

/-- Issue severity, from frontend/src/types/contract.ts. -/
inductive Severity where
  | warning
  | error
  | critical
deriving Repr, DecidableEq

/-- ValidationIssue, from frontend/src/types/contract.ts. -/
structure ValidationIssue where
  field : String
  rule : String
  message : String
  severity : Severity
  reasoning : Option String
deriving Repr, DecidableEq

/-- ValidationResult, from the spec data model: issues, the human-review
verdict, and contract-scoped review reasons. -/
structure ValidationResult where
  issues : List ValidationIssue
  requires_human_review : Bool
  review_reasons : List String
deriving Repr, DecidableEq

/-- ContractStatus, from frontend/src/types/contract.ts. -/
inductive ContractStatus where
  | pending
  | processing
  | approved
  | requires_human_review
  | rejected
deriving Repr, DecidableEq

/-- Contract, from frontend/src/types/contract.ts. -/
structure Contract where
  id : String
  file_name : String
  status : ContractStatus
  created_at : String
  processed_at : Option String
  extracted_data : Option ExtractedData
  validation_issues : List ValidationIssue
  requires_human_review : Bool
  review_reasons : List String
  confidence_score : Option Rat
  human_approved : Bool
deriving Repr, DecidableEq

/-- Model of JavaScript parseInt on a decimal string (the inputs produced by
the number/text form fields): skip leading whitespace, read an optional sign
and then the longest run of leading decimal digits, ignoring any trailing
characters; none models NaN (no digits found). -/
def parseDigits (cs : List Char) : Option Nat :=
  let ds := cs.takeWhile (fun c => c.isDigit)
  if ds.isEmpty then none
  else some (ds.foldl (fun acc c => acc * 10 + (c.toNat - Char.toNat (Char.ofNat 48))) 0)

def parseIntJS (s : String) : Option Int :=
  let cs := s.toList.dropWhile (fun c =>
    c = Char.ofNat 32 ∨ c = Char.ofNat 9 ∨ c = Char.ofNat 10 ∨ c = Char.ofNat 13)
  match cs with
  | [] => none
  | c :: rest =>
    if c = Char.ofNat 45 then (parseDigits rest).map (fun n => -(n : Int))
    else if c = Char.ofNat 43 then (parseDigits rest).map (fun n => (n : Int))
    else (parseDigits cs).map (fun n => (n : Int))

/-- Model of the JavaScript expression x || d when x is parseInt's result:
NaN and 0 are falsy, so both give the default. -/
def jsOrDefault (x : Option Int) (d : Int) : Int :=
  match x with
  | none => d
  | some n => if n = 0 then d else n

/-- AuditForm risk-score onChange (components/AuditForm.tsx):
Math.min(100, Math.max(1, parseInt(value) || 1)). -/
def riskScoreEdit (value : String) : Int :=
  min 100 (max 1 (jsOrDefault (parseIntJS value) 1))

/-- AuditForm handleChange applied to a risk-score edit: the form state the
save/approve buttons submit after the edit. -/
def riskChange (fd : ExtractedData) (value : String) : ExtractedData :=
  { fd with risk_score := riskScoreEdit value }

/-- AuditForm duration onChange (components/AuditForm.tsx):
handleChange('contract_duration_months', parseInt(value) || 0), which always
stores a number (0 on empty or non-numeric input), never clears the field. -/
def durationChange (fd : ExtractedData) (value : String) : ExtractedData :=
  { fd with contract_duration_months := some (jsOrDefault (parseIntJS value) 0) }

/-- Modelled from the spec: the RuleValidationEngine's rule-table entry
(backend Python code is not among the provided sources; only its rule table
is documented in src/README.md and the spec). -/
structure Rule where
  id : String
  field : String
  predicate : ExtractedData → Bool
  message : String
  severity : Severity
  review_reason : String

/-- Modelled from the spec: the issue a matching rule appends. -/
def mkIssue (r : Rule) : ValidationIssue :=
  { field := r.field, rule := r.id, message := r.message,
    severity := r.severity, reasoning := none }

/-- Modelled from the spec: the RuleValidationEngine evaluates every rule of
the table (no short-circuit); each match appends one issue and its review
reason; requires_human_review is true iff any rule matched. -/
def runRules (rules : List Rule) (d : ExtractedData) : ValidationResult :=
  let matched := rules.filter (fun r => r.predicate d)
  { issues := matched.map mkIssue,
    requires_human_review := !matched.isEmpty,
    review_reasons := matched.map (fun r => r.review_reason) }

/-- Modelled from the spec: the excessive_duration rule —
contract_duration_months greater than 24; an unset field does not match. -/
def excessiveDurationRule : Rule :=
  { id := "excessive_duration", field := "contract_duration_months",
    predicate := fun d =>
      match d.contract_duration_months with
      | some m => decide (24 < m)
      | none => false,
    message := "Contract duration exceeds 24 months",
    severity := Severity.warning,
    review_reason := "excessive duration" }

/-- Modelled from the spec: the foreign_jurisdiction rule — jurisdiction set
and different from the configurable reference jurisdiction. -/
def foreignJurisdictionRule (ref : String) : Rule :=
  { id := "foreign_jurisdiction", field := "jurisdiction",
    predicate := fun d =>
      match d.jurisdiction with
      | some j => decide (j ≠ ref)
      | none => false,
    message := "Jurisdiction differs from the reference jurisdiction",
    severity := Severity.warning,
    review_reason := "foreign jurisdiction" }

/-- Modelled from the spec: the high_risk rule — risk_score strictly greater
than 70, severity error, review reason high risk. -/
def highRiskRule : Rule :=
  { id := "high_risk", field := "risk_score",
    predicate := fun d => decide (70 < d.risk_score),
    message := "Risk score exceeds 70",
    severity := Severity.error,
    review_reason := "high risk" }

/-- Modelled from the spec: the baseline rule table, parameterized by the
configurable reference jurisdiction (default Chile per src/README.md). -/
def baselineRules (ref : String) : List Rule :=
  [excessiveDurationRule, foreignJurisdictionRule ref, highRiskRule]

/-- Modelled from the spec: RuleValidationEngine as a pure function of
ExtractedData and the reference jurisdiction. -/
def validate (ref : String) (d : ExtractedData) : ValidationResult :=
  runRules (baselineRules ref) d

/-- Modelled from the spec: the LifecycleManager decision out of processing —
requires_human_review when validation demands review or confidence is below
the threshold, approved only when validation is clean and confidence is at or
above the threshold. -/
def processingTransition (vr : ValidationResult) (confidence threshold : Rat) :
    ContractStatus :=
  if vr.requires_human_review = true ∨ confidence < threshold then
    ContractStatus.requires_human_review
  else
    ContractStatus.approved

/-- Modelled from the spec: the extractor's default record — empty parties,
all optional fields unset, risk_score at a neutral default (50). -/
def defaultRecord : ExtractedData :=
  { parties := [], effective_date := none, contract_duration_months := none,
    contract_duration_raw := none, jurisdiction := none, risk_score := 50 }

/-- Modelled from the spec: strip markdown code-fence wrappers and
surrounding whitespace before the strict parse. -/
def stripFences (s : String) : String :=
  let t := s.trim
  let t := if t.startsWith "```json" then (t.drop 7).trim
           else if t.startsWith "```" then (t.drop 3).trim
           else t
  if t.endsWith "```" then (t.dropRight 3).trim else t

/-- Modelled from the spec: lenient recovery — the substring from the first
opening brace to the last closing brace, when both exist in order.
(Char.ofNat 123 and 125 are the brace characters.) -/
def lenientSlice (s : String) : Option String :=
  let cs := s.toList
  match cs.findIdx? (fun c => c = Char.ofNat 123) with
  | none => none
  | some i =>
    match cs.reverse.findIdx? (fun c => c = Char.ofNat 125) with
    | none => none
    | some jr =>
      let j := cs.length - 1 - jr
      if i ≤ j then some (String.mk ((cs.drop i).take (j - i + 1))) else none

/-- Modelled from the spec: the defensive parse chain of StructuredExtractor.
parse is the strict schema-validated parse; resp is the model response after
the bounded retry, none when the model call itself failed. Confidence 1 on a
strict parse, 1/2 on lenient recovery, 0 on full fallback. -/
def extractChain (parse : String → Option ExtractedData) (resp : Option String) :
    ExtractedData × Rat :=
  match resp with
  | none => (defaultRecord, 0)
  | some s =>
    match parse (stripFences s) with
    | some d => (d, 1)
    | none =>
      match lenientSlice s with
      | some t =>
        match parse t with
        | some d => (d, (1 : Rat) / 2)
        | none => (defaultRecord, 0)
      | none => (defaultRecord, 0)

/-- Modelled from the spec: the audit pipeline on a readable document — it is
total (returns a Contract, never an error): extraction degrades to the
default record instead of failing, validation runs on the extracted data, and
the lifecycle decision out of processing sets the status. -/
def audit (parse : String → Option ExtractedData) (ref : String)
    (threshold : Rat) (cid fname created : String) (resp : Option String) :
    Contract :=
  let dc := extractChain parse resp
  let vr := validate ref dc.1
  { id := cid, file_name := fname,
    status := processingTransition vr dc.2 threshold,
    created_at := created, processed_at := none,
    extracted_data := some dc.1, validation_issues := vr.issues,
    requires_human_review := vr.requires_human_review,
    review_reasons := vr.review_reasons,
    confidence_score := some dc.2, human_approved := false }

/-- Modelled from the spec: CorrectionHandler.save — persists the edited
data, re-runs RuleValidationEngine, updates validation_issues, review_reasons
and requires_human_review, and leaves status and human_approved unchanged. -/
def save (ref : String) (c : Contract) (d : ExtractedData) : Contract :=
  let vr := validate ref d
  { c with extracted_data := some d,
           validation_issues := vr.issues,
           review_reasons := vr.review_reasons,
           requires_human_review := vr.requires_human_review }

/-- Modelled from the spec: CorrectionHandler.approve — save, then the
human-approval transition: status approved, human_approved true,
processed_at set. -/
def approve (ref : String) (c : Contract) (d : ExtractedData) (now : String) :
    Contract :=
  { save ref c d with status := ContractStatus.approved,
                      human_approved := true, processed_at := some now }

/-- Modelled from the spec: the update endpoint behind contractsApi.update
(frontend/src/services/api.ts) — dispatches to save or approve on the
human_approved flag. -/
def update (ref : String) (c : Contract) (d : ExtractedData)
    (humanApproved : Bool) (now : String) : Contract :=
  if humanApproved then approve ref c d now else save ref c d

/-- ContractDetail (pages/ContractDetail.tsx): the AuditForm disabled prop is
saving || contract.human_approved. -/
def auditFormDisabled (saving : Bool) (c : Contract) : Bool :=
  saving || c.human_approved

/-- The two update-issuing actions the AuditForm can emit: the Save Changes
button (update with humanApproved false) and the Approve Contract button
(update with humanApproved true). -/
inductive FormAction where
  | saveChanges
  | approveContract
deriving Repr, DecidableEq

/-- AuditForm (components/AuditForm.tsx): the action buttons render only when
the form is not disabled. -/
def availableActions (disabled : Bool) : List FormAction :=
  if disabled then [] else [FormAction.saveChanges, FormAction.approveContract]

/-- The update calls the contract-detail UI can issue for a contract. -/
def issuableUpdateCalls (saving : Bool) (c : Contract) : List FormAction :=
  availableActions (auditFormDisabled saving c)

/-- Dashboard (pages/Dashboard.tsx): needsReview filters on the
requires_human_review flag. -/
def needsReview (cs : List Contract) : List Contract :=
  cs.filter (fun c => c.requires_human_review)

/-- Dashboard: approved filters on status. -/
def approvedContracts (cs : List Contract) : List Contract :=
  cs.filter (fun c => decide (c.status = ContractStatus.approved))

/-- Dashboard: processing filters on status. -/
def processingContracts (cs : List Contract) : List Contract :=
  cs.filter (fun c => decide (c.status = ContractStatus.processing))

/-- Dashboard: rejected filters on status. -/
def rejectedContracts (cs : List Contract) : List Contract :=
  cs.filter (fun c => decide (c.status = ContractStatus.rejected))

/-- Which optional governing field of ExtractedData a rule-table field name
refers to, and that it is unset. -/
def governingFieldUnset (fieldName : String) (d : ExtractedData) : Prop :=
  (fieldName = "contract_duration_months" ∧ d.contract_duration_months = none) ∨
  (fieldName = "jurisdiction" ∧ d.jurisdiction = none) ∨
  (fieldName = "effective_date" ∧ d.effective_date = none)

/-! ### Helper lemmas about the rule engine -/

theorem mem_runRules_issues {rules : List Rule} {d : ExtractedData}
    {i : ValidationIssue} :
    i ∈ (runRules rules d).issues ↔
      ∃ r, r ∈ rules ∧ r.predicate d = true ∧ mkIssue r = i := by
  simp [runRules, List.mem_map, List.mem_filter, and_assoc]

theorem mem_runRules_reasons {rules : List Rule} {d : ExtractedData}
    {s : String} :
    s ∈ (runRules rules d).review_reasons ↔
      ∃ r, r ∈ rules ∧ r.predicate d = true ∧ r.review_reason = s := by
  simp [runRules, List.mem_map, List.mem_filter, and_assoc]

theorem baselineFilter_nil (ref : String) (d : ExtractedData)
    (hdur : ∀ m, d.contract_duration_months = some m → m ≤ 24)
    (hjur : ∀ j, d.jurisdiction = some j → j = ref)
    (hrisk : d.risk_score ≤ 70) :
    (baselineRules ref).filter (fun r => r.predicate d) = [] := by
  have hp1 : excessiveDurationRule.predicate d = false := by
    simp only [excessiveDurationRule]
    cases h : d.contract_duration_months with
    | none => rfl
    | some m =>
      have := hdur m h
      simp only [decide_eq_false_iff_not, not_lt]
      omega
  have hp2 : (foreignJurisdictionRule ref).predicate d = false := by
    simp only [foreignJurisdictionRule]
    cases h : d.jurisdiction with
    | none => rfl
    | some j =>
      have := hjur j h
      simp [this]
  have hp3 : highRiskRule.predicate d = false := by
    simp only [highRiskRule, decide_eq_false_iff_not, not_lt]
    omega
  simp [baselineRules, List.filter, hp1, hp2, hp3]

/-- C1: for every ExtractedData whose contract_duration_months (when set) is
at most 24, whose jurisdiction equals the reference jurisdiction, and whose
risk_score is at most 70, the RuleValidationEngine returns an empty issue
list; and when extraction confidence is at or above the configured threshold,
the LifecycleManager moves the contract from processing to approved. -/
theorem clean_data_validates_and_auto_approves (ref : String)
    (d : ExtractedData) (conf threshold : Rat)
    (hdur : ∀ m, d.contract_duration_months = some m → m ≤ 24)
    (hjur : d.jurisdiction = some ref)
    (hrisk : d.risk_score ≤ 70)
    (hconf : threshold ≤ conf) :
    (validate ref d).issues = [] ∧
    processingTransition (validate ref d) conf threshold =
      ContractStatus.approved := by
  have hfl := baselineFilter_nil ref d hdur
    (fun j hj => by rw [hjur] at hj; exact (Option.some.inj hj).symm) hrisk
  have hv : validate ref d =
      { issues := [], requires_human_review := false, review_reasons := [] } := by
    simp [validate, runRules, hfl]
  refine ⟨by simp [hv], ?_⟩
  rw [hv]
  simp only [processingTransition]
  rw [if_neg]
  push_neg
  exact ⟨by simp, hconf⟩

theorem clean_data_validates_and_auto_approves_witness :
    (validate "Chile"
      { parties := [], effective_date := none,
        contract_duration_months := some 12, contract_duration_raw := none,
        jurisdiction := some "Chile", risk_score := 30 }).issues = [] ∧
    processingTransition
      (validate "Chile"
        { parties := [], effective_date := none,
          contract_duration_months := some 12, contract_duration_raw := none,
          jurisdiction := some "Chile", risk_score := 30 }) 1 ((9 : Rat) / 10) =
      ContractStatus.approved :=
  clean_data_validates_and_auto_approves "Chile"
    { parties := [], effective_date := none,
      contract_duration_months := some 12, contract_duration_raw := none,
      jurisdiction := some "Chile", risk_score := 30 } 1 ((9 : Rat) / 10)
    (fun m hm => by injection hm with h; omega)
    rfl (by decide) (by norm_num)

/-- C2: every human edit of risk_score in the audit form clamps the entered
value into the range 1–100 at the point of edit: for any input string, the
risk_score held in the form state (and hence submitted by save or approve)
lies in that range, and out-of-range numeric inputs are clamped to the
nearest bound rather than accepted unchanged. -/
theorem risk_score_edit_clamped (fd : ExtractedData) (s : String) :
    1 ≤ (riskChange fd s).risk_score ∧ (riskChange fd s).risk_score ≤ 100 ∧
    (∀ n, parseIntJS s = some n → 100 < n → (riskChange fd s).risk_score = 100) ∧
    (∀ n, parseIntJS s = some n → n < 1 → (riskChange fd s).risk_score = 1) := by
  have hr : (riskChange fd s).risk_score =
      min 100 (max 1 (jsOrDefault (parseIntJS s) 1)) := rfl
  refine ⟨?_, ?_, ?_, ?_⟩
  · rw [hr, min_def, max_def]
    split_ifs <;> omega
  · rw [hr, min_def, max_def]
    split_ifs <;> omega
  · intro n hn h100
    rw [hr]
    simp only [jsOrDefault, hn]
    rw [if_neg (by omega), min_def, max_def]
    split_ifs <;> omega
  · intro n hn h1
    rw [hr]
    simp only [jsOrDefault, hn]
    rw [min_def, max_def]
    split_ifs <;> omega

theorem risk_score_edit_clamped_witness :
    1 ≤ (riskChange defaultRecord "150").risk_score ∧
    (riskChange defaultRecord "150").risk_score ≤ 100 ∧
    (riskChange defaultRecord "150").risk_score = 100 :=
  ⟨(risk_score_edit_clamped defaultRecord "150").1,
   (risk_score_edit_clamped defaultRecord "150").2.1,
   (risk_score_edit_clamped defaultRecord "150").2.2.1 150 (by decide) (by decide)⟩

/-- C8: any edit to the duration field submits a set numeric value, never an
unset field: the form stores parseInt of the input when that is a nonzero
number, and 0 otherwise (empty, non-numeric, or literally zero input),
even though the data model declares the field optional. -/
theorem duration_edit_never_unset (fd : ExtractedData) (s : String) :
    (durationChange fd s).contract_duration_months ≠ none ∧
    (parseIntJS s = none →
      (durationChange fd s).contract_duration_months = some 0) ∧
    (parseIntJS s = some 0 →
      (durationChange fd s).contract_duration_months = some 0) ∧
    (∀ n, parseIntJS s = some n → n ≠ 0 →
      (durationChange fd s).contract_duration_months = some n) := by
  refine ⟨by simp [durationChange], ?_, ?_, ?_⟩
  · intro h
    simp [durationChange, jsOrDefault, h]
  · intro h
    simp [durationChange, jsOrDefault, h]
  · intro n h hn
    simp [durationChange, jsOrDefault, h, hn]

theorem duration_edit_never_unset_witness :
    (durationChange defaultRecord "abc").contract_duration_months ≠ none ∧
    (durationChange defaultRecord "abc").contract_duration_months = some 0 :=
  ⟨(duration_edit_never_unset defaultRecord "abc").1,
   (duration_edit_never_unset defaultRecord "abc").2.1 (by decide)⟩

/-- C3: when the model response cannot be parsed as conforming JSON at any
layer of the defensive chain (or the model call itself failed after its
retry), the extractor returns the default record with confidence 0 and the
contract ends in requires_human_review; audit is a total function, so no
error is surfaced to its caller. -/
theorem unparseable_response_degrades (parse : String → Option ExtractedData)
    (ref : String) (threshold : Rat) (cid fname created : String)
    (resp : Option String)
    (hfail : ∀ s, resp = some s → parse (stripFences s) = none ∧
       ∀ t, lenientSlice s = some t → parse t = none)
    (hth : 0 < threshold) :
    extractChain parse resp = (defaultRecord, 0) ∧
    (audit parse ref threshold cid fname created resp).extracted_data =
      some defaultRecord ∧
    (audit parse ref threshold cid fname created resp).confidence_score =
      some 0 ∧
    (audit parse ref threshold cid fname created resp).status =
      ContractStatus.requires_human_review := by
  have hchain : extractChain parse resp = (defaultRecord, 0) := by
    cases resp with
    | none => rfl
    | some s =>
      obtain ⟨h1, h2⟩ := hfail s rfl
      simp only [extractChain, h1]
      cases hl : lenientSlice s with
      | none => rfl
      | some t => simp [h2 t hl]
  have hval : validate ref defaultRecord =
      { issues := [], requires_human_review := false, review_reasons := [] } := by
    simp [validate, runRules, baselineRules, List.filter,
      excessiveDurationRule, foreignJurisdictionRule, highRiskRule,
      defaultRecord]
  refine ⟨hchain, ?_, ?_, ?_⟩
  · simp [audit, hchain]
  · simp [audit, hchain]
  · simp [audit, hchain, hval, processingTransition, hth]

theorem unparseable_response_degrades_witness :
    extractChain (fun _ => none) (some "not json") = (defaultRecord, 0) ∧
    (audit (fun _ => none) "Chile" ((1 : Rat) / 2) "c1" "contract.pdf" "t0"
      (some "not json")).extracted_data = some defaultRecord ∧
    (audit (fun _ => none) "Chile" ((1 : Rat) / 2) "c1" "contract.pdf" "t0"
      (some "not json")).confidence_score = some 0 ∧
    (audit (fun _ => none) "Chile" ((1 : Rat) / 2) "c1" "contract.pdf" "t0"
      (some "not json")).status = ContractStatus.requires_human_review :=
  unparseable_response_degrades (fun _ => none) "Chile" ((1 : Rat) / 2)
    "c1" "contract.pdf" "t0" (some "not json")
    (fun _ _ => ⟨rfl, fun _ _ => rfl⟩) (by norm_num)

/-- C4: the high_risk rule fires exactly when risk_score is strictly greater
than 70: an ExtractedData with risk_score = 70 produces no high_risk issue,
and one with risk_score = 71 produces a high_risk issue of severity error
with review reason high risk. -/
theorem high_risk_boundary (ref : String) (d70 d71 : ExtractedData)
    (h70 : d70.risk_score = 70) (h71 : d71.risk_score = 71) :
    (∀ i ∈ (validate ref d70).issues, i.rule ≠ "high_risk") ∧
    (∃ i ∈ (validate ref d71).issues,
      i.rule = "high_risk" ∧ i.severity = Severity.error) ∧
    "high risk" ∈ (validate ref d71).review_reasons := by
  have hpred71 : highRiskRule.predicate d71 = true := by
    simp [highRiskRule, h71]
  refine ⟨?_, ?_, ?_⟩
  · intro i hi
    simp only [validate] at hi
    rw [mem_runRules_issues] at hi
    obtain ⟨r, hr, hpred, hmk⟩ := hi
    simp only [baselineRules, List.mem_cons, List.not_mem_nil, or_false] at hr
    rcases hr with h | h | h
    · subst h
      rw [← hmk]
      decide
    · subst h
      rw [← hmk]
      simp only [mkIssue, foreignJurisdictionRule]
      decide
    · subst h
      simp [highRiskRule, h70] at hpred
  · refine ⟨mkIssue highRiskRule, ?_, rfl, rfl⟩
    simp only [validate]
    exact mem_runRules_issues.mpr
      ⟨highRiskRule, by simp [baselineRules], hpred71, rfl⟩
  · simp only [validate]
    exact mem_runRules_reasons.mpr
      ⟨highRiskRule, by simp [baselineRules], hpred71, rfl⟩

theorem high_risk_boundary_witness :
    (∀ i ∈ (validate "Chile"
      { parties := [], effective_date := none,
        contract_duration_months := none, contract_duration_raw := none,
        jurisdiction := none, risk_score := 70 }).issues,
      i.rule ≠ "high_risk") ∧
    (∃ i ∈ (validate "Chile"
      { parties := [], effective_date := none,
        contract_duration_months := none, contract_duration_raw := none,
        jurisdiction := none, risk_score := 71 }).issues,
      i.rule = "high_risk" ∧ i.severity = Severity.error) ∧
    "high risk" ∈ (validate "Chile"
      { parties := [], effective_date := none,
        contract_duration_months := none, contract_duration_raw := none,
        jurisdiction := none, risk_score := 71 }).review_reasons :=
  high_risk_boundary "Chile"
    { parties := [], effective_date := none,
      contract_duration_months := none, contract_duration_raw := none,
      jurisdiction := none, risk_score := 70 }
    { parties := [], effective_date := none,
      contract_duration_months := none, contract_duration_raw := none,
      jurisdiction := none, risk_score := 71 }
    rfl rfl

/-- C5: the RuleValidationEngine is a deterministic pure function of
ExtractedData and the rule table: evaluating it twice yields an identical
ValidationResult, and the automated pipeline (audit) and the human-correction
path (save) obtain identical issues, human-review verdict and review reasons
when given the same extracted data. -/
theorem validation_engine_deterministic
    (parse : String → Option ExtractedData) (ref : String) (threshold : Rat)
    (cid fname created : String) (resp : Option String) (c : Contract)
    (d : ExtractedData) (hd : (extractChain parse resp).1 = d) :
    validate ref d = validate ref d ∧
    (audit parse ref threshold cid fname created resp).validation_issues =
      (save ref c d).validation_issues ∧
    (audit parse ref threshold cid fname created resp).requires_human_review =
      (save ref c d).requires_human_review ∧
    (audit parse ref threshold cid fname created resp).review_reasons =
      (save ref c d).review_reasons := by
  subst hd
  exact ⟨rfl, rfl, rfl, rfl⟩

theorem validation_engine_deterministic_witness :
    validate "Chile" defaultRecord = validate "Chile" defaultRecord ∧
    (audit (fun _ => none) "Chile" ((1 : Rat) / 2) "c1" "contract.pdf" "t0"
      none).validation_issues =
      (save "Chile"
        { id := "c1", file_name := "contract.pdf",
          status := ContractStatus.requires_human_review, created_at := "t0",
          processed_at := none, extracted_data := none,
          validation_issues := [], requires_human_review := true,
          review_reasons := [], confidence_score := some 0,
          human_approved := false } defaultRecord).validation_issues ∧
    (audit (fun _ => none) "Chile" ((1 : Rat) / 2) "c1" "contract.pdf" "t0"
      none).requires_human_review =
      (save "Chile"
        { id := "c1", file_name := "contract.pdf",
          status := ContractStatus.requires_human_review, created_at := "t0",
          processed_at := none, extracted_data := none,
          validation_issues := [], requires_human_review := true,
          review_reasons := [], confidence_score := some 0,
          human_approved := false } defaultRecord).requires_human_review ∧
    (audit (fun _ => none) "Chile" ((1 : Rat) / 2) "c1" "contract.pdf" "t0"
      none).review_reasons =
      (save "Chile"
        { id := "c1", file_name := "contract.pdf",
          status := ContractStatus.requires_human_review, created_at := "t0",
          processed_at := none, extracted_data := none,
          validation_issues := [], requires_human_review := true,
          review_reasons := [], confidence_score := some 0,
          human_approved := false } defaultRecord).review_reasons :=
  validation_engine_deterministic (fun _ => none) "Chile" ((1 : Rat) / 2)
    "c1" "contract.pdf" "t0" none
    { id := "c1", file_name := "contract.pdf",
      status := ContractStatus.requires_human_review, created_at := "t0",
      processed_at := none, extracted_data := none,
      validation_issues := [], requires_human_review := true,
      review_reasons := [], confidence_score := some 0,
      human_approved := false } defaultRecord rfl

/-- C6: for every contract and ExtractedData, the save operation (update
with humanApproved = false) refreshes validation_issues, review_reasons and
requires_human_review from the re-validation, and leaves the contract's
status and human_approved fields unchanged. -/
theorem save_updates_validation_preserves_status (ref : String)
    (c : Contract) (d : ExtractedData) (now : String) :
    (update ref c d false now).status = c.status ∧
    (update ref c d false now).human_approved = c.human_approved ∧
    (update ref c d false now).validation_issues = (validate ref d).issues ∧
    (update ref c d false now).review_reasons =
      (validate ref d).review_reasons ∧
    (update ref c d false now).requires_human_review =
      (validate ref d).requires_human_review ∧
    (update ref c d false now).extracted_data = some d :=
  ⟨rfl, rfl, rfl, rfl, rfl, rfl⟩

/-- C7: a rule whose governing field is unset does not match and contributes
no ValidationIssue and no review reason; in particular an unset jurisdiction
never triggers foreign_jurisdiction and an unset contract_duration_months
never triggers excessive_duration. -/
theorem unset_field_rule_does_not_match (ref : String) (d : ExtractedData) :
    (∀ r ∈ baselineRules ref, governingFieldUnset r.field d →
      r.predicate d = false) ∧
    (d.jurisdiction = none →
      (∀ i ∈ (validate ref d).issues, i.rule ≠ "foreign_jurisdiction") ∧
      "foreign jurisdiction" ∉ (validate ref d).review_reasons) ∧
    (d.contract_duration_months = none →
      (∀ i ∈ (validate ref d).issues, i.rule ≠ "excessive_duration") ∧
      "excessive duration" ∉ (validate ref d).review_reasons) := by
  refine ⟨?_, ?_, ?_⟩
  · intro r hr hu
    simp only [baselineRules, List.mem_cons, List.not_mem_nil, or_false] at hr
    rcases hr with h | h | h
    · subst h
      simp only [governingFieldUnset] at hu
      rcases hu with ⟨_, hnone⟩ | ⟨h2, _⟩ | ⟨h2, _⟩
      · simp [excessiveDurationRule, hnone]
      · exact absurd h2 (by decide)
      · exact absurd h2 (by decide)
    · subst h
      simp only [governingFieldUnset, foreignJurisdictionRule] at hu
      rcases hu with ⟨h2, _⟩ | ⟨_, hnone⟩ | ⟨h2, _⟩
      · exact absurd h2 (by decide)
      · simp [foreignJurisdictionRule, hnone]
      · exact absurd h2 (by decide)
    · subst h
      simp only [governingFieldUnset] at hu
      rcases hu with ⟨h2, _⟩ | ⟨h2, _⟩ | ⟨h2, _⟩ <;>
        exact absurd h2 (by decide)
  · intro hnone
    constructor
    · intro i hi
      simp only [validate] at hi
      rw [mem_runRules_issues] at hi
      obtain ⟨r, hr, hpred, hmk⟩ := hi
      simp only [baselineRules, List.mem_cons, List.not_mem_nil, or_false] at hr
      rcases hr with h | h | h
      · subst h
        rw [← hmk]
        decide
      · subst h
        simp [foreignJurisdictionRule, hnone] at hpred
      · subst h
        rw [← hmk]
        decide
    · intro hmem
      simp only [validate] at hmem
      rw [mem_runRules_reasons] at hmem
      obtain ⟨r, hr, hpred, hrsn⟩ := hmem
      simp only [baselineRules, List.mem_cons, List.not_mem_nil, or_false] at hr
      rcases hr with h | h | h
      · subst h
        exact absurd hrsn (by decide)
      · subst h
        simp [foreignJurisdictionRule, hnone] at hpred
      · subst h
        exact absurd hrsn (by decide)
  · intro hnone
    constructor
    · intro i hi
      simp only [validate] at hi
      rw [mem_runRules_issues] at hi
      obtain ⟨r, hr, hpred, hmk⟩ := hi
      simp only [baselineRules, List.mem_cons, List.not_mem_nil, or_false] at hr
      rcases hr with h | h | h
      · subst h
        simp [excessiveDurationRule, hnone] at hpred
      · subst h
        rw [← hmk]
        simp only [mkIssue, foreignJurisdictionRule]
        decide
      · subst h
        rw [← hmk]
        decide
    · intro hmem
      simp only [validate] at hmem
      rw [mem_runRules_reasons] at hmem
      obtain ⟨r, hr, hpred, hrsn⟩ := hmem
      simp only [baselineRules, List.mem_cons, List.not_mem_nil, or_false] at hr
      rcases hr with h | h | h
      · subst h
        simp [excessiveDurationRule, hnone] at hpred
      · subst h
        simp only [foreignJurisdictionRule] at hrsn
        exact absurd hrsn (by decide)
      · subst h
        exact absurd hrsn (by decide)

theorem unset_field_rule_does_not_match_witness :
    (∀ i ∈ (validate "Chile" defaultRecord).issues,
      i.rule ≠ "foreign_jurisdiction") ∧
    "foreign jurisdiction" ∉ (validate "Chile" defaultRecord).review_reasons ∧
    (∀ i ∈ (validate "Chile" defaultRecord).issues,
      i.rule ≠ "excessive_duration") ∧
    "excessive duration" ∉ (validate "Chile" defaultRecord).review_reasons :=
  ⟨((unset_field_rule_does_not_match "Chile" defaultRecord).2.1 rfl).1,
   ((unset_field_rule_does_not_match "Chile" defaultRecord).2.1 rfl).2,
   ((unset_field_rule_does_not_match "Chile" defaultRecord).2.2 rfl).1,
   ((unset_field_rule_does_not_match "Chile" defaultRecord).2.2 rfl).2⟩

/-- C9: once a contract's human_approved field is true, the contract-detail
view renders the audit form disabled and without its save/approve buttons, so
the UI can issue no further update call for that contract: human approval
freezes the record against further human edits. -/
theorem human_approval_freezes_form (saving : Bool) (c : Contract)
    (h : c.human_approved = true) :
    auditFormDisabled saving c = true ∧
    availableActions (auditFormDisabled saving c) = [] ∧
    issuableUpdateCalls saving c = [] := by
  have hd : auditFormDisabled saving c = true := by
    simp [auditFormDisabled, h]
  refine ⟨hd, ?_, ?_⟩
  · simp [availableActions, hd]
  · simp [issuableUpdateCalls, availableActions, auditFormDisabled, h]

/-- A contract already approved by a human reviewer. -/
def contractHumanApproved : Contract :=
  { id := "c9", file_name := "approved.pdf",
    status := ContractStatus.approved, created_at := "t0",
    processed_at := some "t1", extracted_data := some defaultRecord,
    validation_issues := [], requires_human_review := false,
    review_reasons := [], confidence_score := some 1,
    human_approved := true }

theorem human_approval_freezes_form_witness :
    auditFormDisabled false contractHumanApproved = true ∧
    availableActions (auditFormDisabled false contractHumanApproved) = [] ∧
    issuableUpdateCalls false contractHumanApproved = [] :=
  human_approval_freezes_form false contractHumanApproved rfl

/-- C10: the dashboard computes Needs Review from the requires_human_review
flag while the approved, processing and rejected categories come from the
status field; a contract whose flag is true while its status is approved,
processing or rejected is counted in two categories at once, and a contract
with status requires_human_review but flag false appears in none of the
four. -/
theorem dashboard_categories_overlap_and_gap (cs : List Contract)
    (c : Contract) (hc : c ∈ cs) :
    (c.requires_human_review = true → c.status = ContractStatus.approved →
      c ∈ needsReview cs ∧ c ∈ approvedContracts cs) ∧
    (c.requires_human_review = true → c.status = ContractStatus.processing →
      c ∈ needsReview cs ∧ c ∈ processingContracts cs) ∧
    (c.requires_human_review = true → c.status = ContractStatus.rejected →
      c ∈ needsReview cs ∧ c ∈ rejectedContracts cs) ∧
    (c.requires_human_review = false →
      c.status = ContractStatus.requires_human_review →
      c ∉ needsReview cs ∧ c ∉ approvedContracts cs ∧
      c ∉ processingContracts cs ∧ c ∉ rejectedContracts cs) := by
  refine ⟨?_, ?_, ?_, ?_⟩ <;> intro hflag hstat
  · exact ⟨List.mem_filter.mpr ⟨hc, by simp [hflag]⟩,
           List.mem_filter.mpr ⟨hc, by simp [hstat]⟩⟩
  · exact ⟨List.mem_filter.mpr ⟨hc, by simp [hflag]⟩,
           List.mem_filter.mpr ⟨hc, by simp [hstat]⟩⟩
  · exact ⟨List.mem_filter.mpr ⟨hc, by simp [hflag]⟩,
           List.mem_filter.mpr ⟨hc, by simp [hstat]⟩⟩
  · refine ⟨?_, ?_, ?_, ?_⟩ <;> intro hmem
    · have h2 := (List.mem_filter.mp hmem).2
      simp [hflag] at h2
    · have h2 := (List.mem_filter.mp hmem).2
      simp [hstat] at h2
    · have h2 := (List.mem_filter.mp hmem).2
      simp [hstat] at h2
    · have h2 := (List.mem_filter.mp hmem).2
      simp [hstat] at h2

/-- A dashboard contract whose review flag is set while its status is
approved. -/
def contractFlagApproved : Contract :=
  { id := "c10a", file_name := "a.pdf", status := ContractStatus.approved,
    created_at := "t0", processed_at := none, extracted_data := none,
    validation_issues := [], requires_human_review := true,
    review_reasons := [], confidence_score := none, human_approved := false }

/-- A dashboard contract with status requires_human_review but flag false. -/
def contractFlagGap : Contract :=
  { id := "c10b", file_name := "b.pdf",
    status := ContractStatus.requires_human_review,
    created_at := "t0", processed_at := none, extracted_data := none,
    validation_issues := [], requires_human_review := false,
    review_reasons := [], confidence_score := none, human_approved := false }

theorem dashboard_categories_overlap_and_gap_witness :
    (contractFlagApproved ∈ needsReview [contractFlagApproved] ∧
     contractFlagApproved ∈ approvedContracts [contractFlagApproved]) ∧
    (contractFlagGap ∉ needsReview [contractFlagGap] ∧
     contractFlagGap ∉ approvedContracts [contractFlagGap] ∧
     contractFlagGap ∉ processingContracts [contractFlagGap] ∧
     contractFlagGap ∉ rejectedContracts [contractFlagGap]) :=
  ⟨(dashboard_categories_overlap_and_gap [contractFlagApproved]
      contractFlagApproved (by simp)).1 rfl rfl,
   (dashboard_categories_overlap_and_gap [contractFlagGap]
      contractFlagGap (by simp)).2.2.2 rfl rfl⟩
